import Mathlib

/-
Verification of the blob-storage adapter in prefect_azure/blob_storage.py.

The Python module exposes three async tasks, download / upload / list, over
the Azure Blob Storage SDK, plus an `aclosing` async context manager.  We
embed the module shallowly:

  * blob content is a byte sequence, modelled as `List Nat`;
  * the vendor store is an association list of (container, key, content)
    in the vendor enumeration order;
  * each vendor SDK call the adapter awaits is a field of `VendorModel`:
    a possibly-failing function over the store (the error type and the
    type of the downloader object returned by `download_blob` are
    parameters, since both are opaque to the adapter);
  * the adapter functions are translated line by line from the Python
    source; `async with` blocks are expanded to their guaranteed-cleanup
    semantics (the `__aexit__` release runs on both the normal and the
    exceptional exit path, and the exception, if any, is re-raised);
  * observable effects (log records, client acquisition, client release)
    are collected in an event trace.

`azureVendor` instantiates `VendorModel` with the documented behaviour of
the vendor SDK (download of a missing blob fails, upload over an existing
key with overwrite=False fails with a resource-exists conflict), acting as
the test double the specification refers to.
-/

namespace PrefectAzure

/-- Byte sequences: blob content is an uninterpreted sequence of bytes. -/
abbrev Bytes := List Nat

/-- Metadata record for one blob, as yielded by the vendor enumeration. -/
structure BlobProperties where
  name : String
  size : Nat
deriving DecidableEq, Repr

/-- A structured log record: the format string and the interpolated
arguments (an absent argument, Python `None`, is `none`). -/
structure LogEntry where
  msg : String
  args : List (Option String)
deriving DecidableEq, Repr

/-- Observable effects of one adapter operation, in program order. -/
inductive Event where
  | logged (entry : LogEntry)
  | acquired (container : String) (blob : Option String)
  | released
deriving DecidableEq, Repr

/-- The vendor-side blob store: (container, key, content) triples in the
vendor's own enumeration order. -/
structure Store where
  blobs : List (String × String × Bytes)
deriving DecidableEq, Repr

/-- Content stored at (container, key), if any. -/
def Store.find (s : Store) (c k : String) : Option Bytes :=
  (s.blobs.find? fun t => t.1 == c && t.2.1 == k).map fun t => t.2.2

/-- Write content at (container, key), replacing any existing object. -/
def Store.put (s : Store) (c k : String) (d : Bytes) : Store :=
  ⟨(s.blobs.filter fun t => !(t.1 == c && t.2.1 == k)) ++ [(c, k, d)]⟩

/-- The vendor enumeration of one container: one metadata record per blob
of the container, in store order. -/
def Store.containerRecords (s : Store) (c : String) : List BlobProperties :=
  (s.blobs.filter fun t => t.1 == c).map fun t => ⟨t.2.1, t.2.2.length⟩

/-- The vendor SDK calls the adapter awaits.  `ε` is the (opaque) error
type, `δ` the type of the downloader object `download_blob` returns.
`download_blob` and `content_as_bytes` read the store; `upload_blob`
returns the updated store on success. -/
structure VendorModel (ε δ : Type) where
  downloadBlob : Store → String → String → Except ε δ
  contentAsBytes : δ → Except ε Bytes
  uploadBlob : Store → String → String → Bytes → Bool → Except ε Store
  listBlobs : Store → String → Except ε (List BlobProperties)

/-- Format string of the download log call. -/
def downloadMsg : String := "Downloading blob from container %s with key %s"

/-- Format string of the upload log call. -/
def uploadMsg : String := "Uploading blob to container %s with key %s"

/-- Format string of the list log call. -/
def listMsg : String := "Listing blobs from container %s"

/-- `blob_storage_download(container, blob, azure_credentials)`:
log, acquire a client scoped to (container, blob), await
`download_blob` then `content_as_bytes`, release the client on every
exit path, return the bytes or re-raise the vendor error. -/
def blob_storage_download {ε δ : Type} (V : VendorModel ε δ)
    (container blob : String) (s : Store) :
    List Event × Store × Except ε Bytes :=
  let ev := [Event.logged ⟨downloadMsg, [some container, some blob]⟩,
             Event.acquired container (some blob)]
  match V.downloadBlob s container blob with
  | .error e => (ev ++ [Event.released], s, .error e)
  | .ok blob_obj =>
    match V.contentAsBytes blob_obj with
    | .error e => (ev ++ [Event.released], s, .error e)
    | .ok output => (ev ++ [Event.released], s, .ok output)

/-- `blob_storage_upload(data, container, azure_credentials, blob, overwrite)`:
log (with the caller-supplied key, possibly absent), generate a default
key when none was supplied (`str(uuid.uuid4())` is modelled by the
injected `freshKey`), acquire a client scoped to (container, key), await
`upload_blob`, release the client on every exit path, return the resolved
key or re-raise the vendor error. -/
def blob_storage_upload {ε δ : Type} (V : VendorModel ε δ)
    (data : Bytes) (container : String) (blob : Option String)
    (overwrite : Bool) (freshKey : String) (s : Store) :
    List Event × Store × Except ε String :=
  let ev0 := [Event.logged ⟨uploadMsg, [some container, blob]⟩]
  let key := blob.getD freshKey
  let ev := ev0 ++ [Event.acquired container (some key)]
  match V.uploadBlob s container key data overwrite with
  | .error e => (ev ++ [Event.released], s, .error e)
  | .ok s2 => (ev ++ [Event.released], s2, .ok key)

/-- `blob_storage_list(container, azure_credentials)`: log, acquire a
container-scoped client under `aclosing`, materialize the vendor
enumeration into a list, close the client on every exit path, return the
list or re-raise the vendor error. -/
def blob_storage_list {ε δ : Type} (V : VendorModel ε δ)
    (container : String) (s : Store) :
    List Event × Store × Except ε (List BlobProperties) :=
  let ev := [Event.logged ⟨listMsg, [some container]⟩,
             Event.acquired container none]
  match V.listBlobs s container with
  | .error e => (ev ++ [Event.released], s, .error e)
  | .ok blobs => (ev ++ [Event.released], s, .ok blobs)

/-- Errors of the vendor SDK test double. -/
inductive AzureError where
  | resourceNotFound (container blob : String)
  | resourceExists (container blob : String)
deriving DecidableEq, Repr

/-- The vendor SDK test double over `Store`, with the SDK's documented
behaviour: download of a missing blob raises not-found, upload over an
existing key raises resource-exists unless overwrite is set, listing
yields one record per blob of the container in store order. -/
def azureVendor : VendorModel AzureError Bytes where
  downloadBlob := fun s c k =>
    match s.find c k with
    | some b => .ok b
    | none => .error (.resourceNotFound c k)
  contentAsBytes := fun b => .ok b
  uploadBlob := fun s c k data ow =>
    match s.find c k with
    | some _ => if ow then .ok (s.put c k data) else .error (.resourceExists c k)
    | none => .ok (s.put c k data)
  listBlobs := fun s c => .ok (s.containerRecords c)

/-- Log entries of an event trace, in order. -/
def logsOf (evs : List Event) : List LogEntry :=
  evs.filterMap fun e =>
    match e with
    | .logged entry => some entry
    | _ => none

/-- Number of client releases in an event trace. -/
def releaseCount (evs : List Event) : Nat :=
  (evs.filter fun e =>
    match e with
    | .released => true
    | _ => false).length

/-- An async context manager over a state `σ`: `__aenter__` may update the
state and yields the bound value; `__aexit__` updates the state.  The
pending exception, when there is one, is re-raised after `__aexit__`
(`aclosing.__aexit__` returns no truthy value that would suppress it). -/
structure ACM (σ β : Type) where
  aenter : σ → σ × β
  aexit : σ → σ

/-- The `aclosing` class of the source: `__init__` stores the thing,
`__aenter__` returns `self.thing` unchanged, `__aexit__` awaits
`self.thing.close()`.  The state is the number of completed `close()`
calls on the wrapped thing. -/
def aclosing {α : Type} (thing : α) : ACM Nat α where
  aenter := fun s => (s, thing)
  aexit := fun s => s + 1

/-- `async with cm as b: body`, with guaranteed cleanup: run `__aenter__`,
run the body (an exception raised by it is captured in the `Except`
outcome), run `__aexit__` on both the normal and the exceptional path,
then deliver the body's outcome. -/
def asyncWith {σ β ε γ : Type} (cm : ACM σ β)
    (body : β → σ → σ × Except ε γ) (s : σ) : σ × Except ε γ :=
  let p := cm.aenter s
  let q := body p.2 p.1
  (cm.aexit q.1, q.2)

/-- The docstring's stated equivalent of
`async with aclosing(x) as agen: body` (the specification side of the
refinement claim): bind `agen = x`, run the body, and in a finally block
await `agen.close()` exactly once, whatever the body's outcome. -/
def tryFinallyClose {α ε γ : Type} (thing : α)
    (body : α → Nat → Nat × Except ε γ) (s : Nat) : Nat × Except ε γ :=
  let q := body thing s
  (q.1 + 1, q.2)

/-- After a write at (c, k), the store holds exactly the written content
at (c, k). -/
lemma Store.find_put (s : Store) (c k : String) (d : Bytes) :
    (s.put c k d).find c k = some d := by
  have hnone : (s.blobs.filter fun t => !(t.1 == c && t.2.1 == k)).find?
      (fun t => t.1 == c && t.2.1 == k) = none := by
    apply List.find?_eq_none.mpr
    intro x hx
    have hmem := List.mem_filter.mp hx
    simp only [Bool.not_eq_true'] at hmem
    simp [hmem.2]
  unfold Store.put Store.find
  rw [List.find?_append, hnone]
  rw [List.find?_cons_of_pos _ (by simp)]
  rfl

/-- Extraction of the applied vendor-upload semantics of the test double:
a successful upload wrote exactly the given content at the given key. -/
lemma azure_upload_ok (s s2 : Store) (c k : String) (d : Bytes) (ow : Bool)
    (h : azureVendor.uploadBlob s c k d ow = Except.ok s2) :
    s2 = s.put c k d := by
  revert h
  unfold azureVendor
  cases hf : s.find c k with
  | none =>
    intro h
    simp [hf] at h
    exact h.symm
  | some b =>
    cases ow with
    | false =>
      intro h
      simp [hf] at h
    | true =>
      intro h
      simp [hf] at h
      exact h.symm

/-- A one-blob store used to instantiate the claim theorems. -/
def wStore : Store := ⟨[("cont", "key", [1, 2, 3])]⟩

/-- A vendor double whose every call fails, each call site with its own
distinguishable error. -/
def failVendor : VendorModel Nat Unit where
  downloadBlob := fun _ _ _ => .error 7
  contentAsBytes := fun _ => .error 8
  uploadBlob := fun _ _ _ _ _ => .error 9
  listBlobs := fun _ _ => .error 10

/-- A vendor double whose `download_blob` succeeds but whose
`content_as_bytes` fails. -/
def failLateVendor : VendorModel Nat Unit where
  downloadBlob := fun _ _ _ => .ok ()
  contentAsBytes := fun _ => .error 8
  uploadBlob := fun _ _ _ _ _ => .error 9
  listBlobs := fun _ _ => .error 10

/-- C1: for every (container, key) pair whose blob holds byte content C,
`blob_storage_download` acquires a client scoped to exactly that blob and
returns exactly C as bytes, unmodified. -/
theorem C1_download_returns_content (s : Store) (c k : String) (C : Bytes)
    (h : s.find c k = some C) :
    (blob_storage_download azureVendor c k s).2.2 = Except.ok C ∧
    Event.acquired c (some k) ∈ (blob_storage_download azureVendor c k s).1 := by
  constructor
  · simp [blob_storage_download, azureVendor, h]
  · simp [blob_storage_download, azureVendor, h]

/-- Witness for C1: the concrete one-blob store round-trips its content. -/
theorem C1_download_returns_content_witness :
    (blob_storage_download azureVendor "cont" "key" wStore).2.2 =
      Except.ok [1, 2, 3] ∧
    Event.acquired "cont" (some "key") ∈
      (blob_storage_download azureVendor "cont" "key" wStore).1 :=
  C1_download_returns_content wStore "cont" "key" [1, 2, 3] rfl

/-- C2: uploading with overwrite=False to a key that already holds an
object fails with the vendor conflict error, surfaced unmodified (the
adapter returns exactly the error its `upload_blob` call produced), and
the store is left unchanged. -/
theorem C2_upload_conflict (s : Store) (c K : String) (data : Bytes)
    (fresh : String) (old : Bytes) (h : s.find c K = some old) :
    (blob_storage_upload azureVendor data c (some K) false fresh s).2.1 = s ∧
    (blob_storage_upload azureVendor data c (some K) false fresh s).2.2 =
      Except.error (AzureError.resourceExists c K) ∧
    azureVendor.uploadBlob s c K data false =
      Except.error (AzureError.resourceExists c K) := by
  refine ⟨?_, ?_, ?_⟩ <;> simp [blob_storage_upload, azureVendor, h]

/-- Witness for C2: re-uploading the existing key of the concrete store
fails with a conflict and leaves the store as it was. -/
theorem C2_upload_conflict_witness :
    (blob_storage_upload azureVendor [9] "cont" (some "key") false "f" wStore).2.1 =
      wStore ∧
    (blob_storage_upload azureVendor [9] "cont" (some "key") false "f" wStore).2.2 =
      Except.error (AzureError.resourceExists "cont" "key") ∧
    azureVendor.uploadBlob wStore "cont" "key" [9] false =
      Except.error (AzureError.resourceExists "cont" "key") :=
  C2_upload_conflict wStore "cont" "key" [9] "f" [1, 2, 3] rfl

/-- C3: uploading with no key supplied uses the generated fresh identifier
(the uuid draw is modelled by `fresh`, assumed not already present in the
container), returns it, and a subsequent download of that key returns the
uploaded data unchanged. -/
theorem C3_upload_generated_key_roundtrip (s : Store) (c : String)
    (data : Bytes) (fresh : String) (h : s.find c fresh = none) :
    (blob_storage_upload azureVendor data c none false fresh s).2.2 =
      Except.ok fresh ∧
    (blob_storage_download azureVendor c fresh
        (blob_storage_upload azureVendor data c none false fresh s).2.1).2.2 =
      Except.ok data := by
  have hput := Store.find_put s c fresh data
  constructor
  · simp [blob_storage_upload, azureVendor, h]
  · simp [blob_storage_upload, blob_storage_download, azureVendor, h, hput]

/-- Witness for C3: a keyless upload into the concrete store lands at the
fresh key and downloads back unchanged. -/
theorem C3_upload_generated_key_roundtrip_witness :
    (blob_storage_upload azureVendor [4, 5] "cont" none false "gen" wStore).2.2 =
      Except.ok "gen" ∧
    (blob_storage_download azureVendor "cont" "gen"
        (blob_storage_upload azureVendor [4, 5] "cont" none false "gen" wStore).2.1).2.2 =
      Except.ok [4, 5] :=
  C3_upload_generated_key_roundtrip wStore "cont" [4, 5] "gen" rfl

/-- C4: the list operation passes through, fully materialized and
unmodified, the exact sequence any vendor enumeration yields; on the test
double that sequence has one metadata record per blob of the container,
in vendor order, and no extras. -/
theorem C4_list_materializes_vendor_order (s : Store) (c : String) :
    (∀ (ε δ : Type) (V : VendorModel ε δ) (bs : List BlobProperties),
      V.listBlobs s c = Except.ok bs →
        (blob_storage_list V c s).2.2 = Except.ok bs) ∧
    (blob_storage_list azureVendor c s).2.2 =
      Except.ok (s.containerRecords c) ∧
    (s.containerRecords c).length =
      (s.blobs.filter fun t => t.1 == c).length := by
  refine ⟨?_, ?_, ?_⟩
  · intro ε δ V bs hb
    simp [blob_storage_list, hb]
  · simp [blob_storage_list, azureVendor]
  · simp [Store.containerRecords]

/-- Witness for C4: listing the concrete store's container yields its one
record through the adapter. -/
theorem C4_list_materializes_vendor_order_witness :
    (blob_storage_list azureVendor "cont" wStore).2.2 =
      Except.ok [⟨"key", 3⟩] :=
  (C4_list_materializes_vendor_order wStore "cont").1
    AzureError Bytes azureVendor [⟨"key", 3⟩] rfl

/-- C5: every vendor error propagates unmodified: whichever of the awaited
vendor calls fails during download, upload or list, the caller observes
exactly that error - no retry, translation or suppression. -/
theorem C5_errors_propagate (ε δ : Type) (V : VendorModel ε δ) (s : Store)
    (c k : String) (data : Bytes) (blob : Option String) (ow : Bool)
    (fresh : String) :
    (∀ e, V.downloadBlob s c k = Except.error e →
      (blob_storage_download V c k s).2.2 = Except.error e) ∧
    (∀ o e, V.downloadBlob s c k = Except.ok o →
      V.contentAsBytes o = Except.error e →
        (blob_storage_download V c k s).2.2 = Except.error e) ∧
    (∀ e, V.uploadBlob s c (blob.getD fresh) data ow = Except.error e →
      (blob_storage_upload V data c blob ow fresh s).2.2 = Except.error e) ∧
    (∀ e, V.listBlobs s c = Except.error e →
      (blob_storage_list V c s).2.2 = Except.error e) := by
  refine ⟨?_, ?_, ?_, ?_⟩
  · intro e he
    simp [blob_storage_download, he]
  · intro o e ho he
    simp [blob_storage_download, ho, he]
  · intro e he
    simp [blob_storage_upload, he]
  · intro e he
    simp [blob_storage_list, he]

/-- Witness for C5: each failing call site of the vendor doubles surfaces
its own error through the adapter. -/
theorem C5_errors_propagate_witness :
    (blob_storage_download failVendor "c" "k" ⟨[]⟩).2.2 = Except.error 7 ∧
    (blob_storage_download failLateVendor "c" "k" ⟨[]⟩).2.2 = Except.error 8 ∧
    (blob_storage_upload failVendor [] "c" none false "f" ⟨[]⟩).2.2 =
      Except.error 9 ∧
    (blob_storage_list failVendor "c" ⟨[]⟩).2.2 = Except.error 10 :=
  ⟨(C5_errors_propagate Nat Unit failVendor ⟨[]⟩ "c" "k" [] none false "f").1 7 rfl,
   (C5_errors_propagate Nat Unit failLateVendor ⟨[]⟩ "c" "k" [] none false
      "f").2.1 () 8 rfl rfl,
   (C5_errors_propagate Nat Unit failVendor ⟨[]⟩ "c" "k" [] none false
      "f").2.2.1 9 rfl,
   (C5_errors_propagate Nat Unit failVendor ⟨[]⟩ "c" "k" [] none false
      "f").2.2.2 10 rfl⟩

/-- C6: a successful upload returns the resolved blob key - the supplied
key when one was given, the generated key otherwise - the client acquired
is scoped to exactly that key, and the write landed at exactly that key. -/
theorem C6_upload_returns_resolved_key (s : Store) (c : String)
    (blob : Option String) (data : Bytes) (ow : Bool) (fresh k : String)
    (ev : List Event) (s2 : Store)
    (h : blob_storage_upload azureVendor data c blob ow fresh s =
      (ev, s2, Except.ok k)) :
    k = blob.getD fresh ∧ Event.acquired c (some k) ∈ ev ∧
    s2.find c k = some data := by
  cases hvc : azureVendor.uploadBlob s c (blob.getD fresh) data ow with
  | error e =>
    simp [blob_storage_upload, hvc] at h
  | ok s3 =>
    simp only [blob_storage_upload, hvc, Prod.mk.injEq, Except.ok.injEq] at h
    obtain ⟨hev, hs, hk⟩ := h
    have hput : s3 = s.put c (blob.getD fresh) data :=
      azure_upload_ok s s3 c (blob.getD fresh) data ow hvc
    refine ⟨hk.symm, ?_, ?_⟩
    · rw [← hev, ← hk]
      simp
    · rw [← hs, ← hk, hput]
      exact Store.find_put s c (blob.getD fresh) data

/-- Witness for C6: a concrete keyless upload returns the generated key,
acquired exactly that key, and wrote the data there. -/
theorem C6_upload_returns_resolved_key_witness :
    "gen" = (none : Option String).getD "gen" ∧
    Event.acquired "cont" (some "gen") ∈
      [Event.logged ⟨uploadMsg, [some "cont", none]⟩,
       Event.acquired "cont" (some "gen"), Event.released] ∧
    (Store.mk [("cont", "key", [1, 2, 3]), ("cont", "gen", [7])]).find
      "cont" "gen" = some [7] :=
  C6_upload_returns_resolved_key wStore "cont" none [7] false "gen" "gen"
    [Event.logged ⟨uploadMsg, [some "cont", none]⟩,
     Event.acquired "cont" (some "gen"), Event.released]
    ⟨[("cont", "key", [1, 2, 3]), ("cont", "gen", [7])]⟩ rfl

/-- C7: on every exit path of every operation - vendor success or vendor
failure - the acquired client handle (for list, the enumeration resource
held under `aclosing`) is released exactly once before the operation
returns. -/
theorem C7_release_exactly_once (ε δ : Type) (V : VendorModel ε δ)
    (s : Store) (c k : String) (data : Bytes) (blob : Option String)
    (ow : Bool) (fresh : String) :
    releaseCount (blob_storage_download V c k s).1 = 1 ∧
    releaseCount (blob_storage_upload V data c blob ow fresh s).1 = 1 ∧
    releaseCount (blob_storage_list V c s).1 = 1 := by
  refine ⟨?_, ?_, ?_⟩
  · cases h1 : V.downloadBlob s c k with
    | error e => simp [blob_storage_download, releaseCount, h1]
    | ok o =>
      cases h2 : V.contentAsBytes o with
      | error e => simp [blob_storage_download, releaseCount, h1, h2]
      | ok b => simp [blob_storage_download, releaseCount, h1, h2]
  · cases h1 : V.uploadBlob s c (blob.getD fresh) data ow with
    | error e => simp [blob_storage_upload, releaseCount, h1]
    | ok s2 => simp [blob_storage_upload, releaseCount, h1]
  · cases h1 : V.listBlobs s c with
    | error e => simp [blob_storage_list, releaseCount, h1]
    | ok bs => simp [blob_storage_list, releaseCount, h1]

/-- C8: whatever the vendor does, a download's only side effect is the
single structured log record of the container and key being fetched; the
store is never created, mutated or destroyed by the operation. -/
theorem C8_download_frame (ε δ : Type) (V : VendorModel ε δ) (s : Store)
    (c k : String) :
    logsOf (blob_storage_download V c k s).1 =
      [⟨downloadMsg, [some c, some k]⟩] ∧
    (blob_storage_download V c k s).2.1 = s := by
  cases h1 : V.downloadBlob s c k with
  | error e => simp [blob_storage_download, logsOf, h1]
  | ok o =>
    cases h2 : V.contentAsBytes o with
    | error e => simp [blob_storage_download, logsOf, h1, h2]
    | ok b => simp [blob_storage_download, logsOf, h1, h2]

/-- C9: `aclosing(x).__aenter__` yields the wrapped `x` itself unchanged,
and the `async with aclosing(x)` block equals the docstring's try/finally:
the body runs on `x` and exactly one `close()` follows it, whether the
body completes normally or raises. -/
theorem C9_aclosing_equiv_try_finally {α ε γ : Type} (x : α)
    (body : α → Nat → Nat × Except ε γ) (s : Nat) :
    (aclosing x).aenter s = (s, x) ∧
    asyncWith (aclosing x) body s = tryFinallyClose x body s ∧
    (asyncWith (aclosing x) body s).1 = (body x s).1 + 1 :=
  ⟨rfl, rfl, rfl⟩

/-- C10: when the key is omitted, the log record is emitted before the
default key is generated: it is the first event, it records the absent
key (None) independently of the generated key, and the generated key
shows up only in the client scope (and hence the return value), never in
the log. -/
theorem C10_upload_logs_absent_key (ε δ : Type) (V : VendorModel ε δ)
    (s : Store) (c : String) (data : Bytes) (ow : Bool) (fresh : String) :
    logsOf (blob_storage_upload V data c none ow fresh s).1 =
      [⟨uploadMsg, [some c, none]⟩] ∧
    (blob_storage_upload V data c none ow fresh s).1.head? =
      some (Event.logged ⟨uploadMsg, [some c, none]⟩) ∧
    Event.acquired c (some fresh) ∈
      (blob_storage_upload V data c none ow fresh s).1 := by
  cases h1 : V.uploadBlob s c fresh data ow with
  | error e => simp [blob_storage_upload, logsOf, h1]
  | ok s2 => simp [blob_storage_upload, logsOf, h1]

end PrefectAzure
